import Mathlib

/-!
# AndicBlue Ventas — formal model of the order/payment/inventory core

Shallow embedding of the business-logic core of `andicblue_ventas.py`
(product catalog, orders, order lines, inventory, cash flow).  Monetary
amounts and quantities are modelled as `Int` (values are integer COP in
the source; `float(...)` casts in the Python are value-preserving on
these inputs).  Tables (pandas DataFrames) are modelled as Lean lists of
rows, kept in the order the code produces them.
-/

namespace AndicBlue

/-- Drop leading and trailing whitespace from a character list. -/
def stripList (l : List Char) : List Char :=
  ((l.dropWhile Char.isWhitespace).reverse.dropWhile Char.isWhitespace).reverse

/-- Python's `str.strip()`: drop leading and trailing whitespace.
Modelled on the character list. -/
def strip (s : String) : String :=
  (stripList s.toList).asString

/-- The normalisation used by `canonical_product_name`:
`x.lower().replace(" ", "").replace("_","").replace("-","")`.
Replacing a single character by the empty string is removal, hence the filter. -/
def norm (x : String) : String :=
  ((x.toList.map Char.toLower).filter (fun c => c != ' ' && c != '_' && c != '-')).asString

/-- Does `a` occur as a contiguous sublist of `b`? -/
def listSubstr (a : List Char) : List Char → Bool
  | [] => a.isEmpty
  | b :: t => a.isPrefixOf (b :: t) || listSubstr a t

/-- Python's substring test `a in b`. -/
def substr (a b : String) : Bool :=
  listSubstr a.toList b.toList

/-- `DOMICILIO_COST = 3000  # COP` -/
def DOMICILIO_COST : Int := 3000

/-- The `PRODUCTOS` catalog dict, in literal (insertion) order. -/
def PRODUCTOS : List (String × Int) :=
  [ ("Docena de Arándanos 125g", 52500),
    ("Arandanos_125g", 5000),
    ("Arandanos_250g", 10000),
    ("Arandanos_500g", 20000),
    ("Kilo_industrial", 30000),
    ("Mermelada_azucar", 16000),
    ("Mermelada_sin_azucar", 20000) ]

/-- `PRODUCTOS.keys()` in iteration order. -/
def productKeys : List String := PRODUCTOS.map (·.1)

/-- `PRODUCTOS.get(prod, 0)`. -/
def price (p : String) : Int :=
  match PRODUCTOS.find? (fun kv => kv.1 == p) with
  | some kv => kv.2
  | none => 0

/-- `canonical_product_name` (lines 441–455): exact match on the stripped
name, then normalised equality, then normalised substring containment in
either direction, else the stripped name unchanged. -/
def canonical_product_name (name : String) : String :=
  let s := strip name
  if productKeys.contains s then s
  else
    let ns := norm s
    match productKeys.find? (fun k => norm k == ns) with
    | some k => k
    | none =>
      match productKeys.find? (fun k => substr ns (norm k) || substr (norm k) ns) with
      | some k => k
      | none => s

example : canonical_product_name "Arandanos_250g" = "Arandanos_250g" := by decide
example : canonical_product_name " arandanos 250G " = "Arandanos_250g" := by decide

/-- A row of the `Pedidos` table (order header).  `Fecha` and
`Numero Factura` carry no business logic and are omitted. -/
structure Order where
  id : Int
  clienteId : Int
  nombreCliente : String
  subtotal : Int        -- Subtotal_productos
  domicilio : Int       -- Monto_domicilio
  total : Int           -- Total_pedido
  estado : String       -- Estado ("Pendiente" / "Entregado")
  medioPago : String    -- Medio_pago
  montoPagado : Int     -- Monto_pagado
  saldo : Int           -- Saldo_pendiente
  semana : Int          -- Semana_entrega
  deriving Repr, DecidableEq

/-- A row of the `Pedidos_detalle` table. -/
structure OrderLine where
  orderId : Int
  producto : String
  cantidad : Int
  precioUnitario : Int
  subtotal : Int
  deriving Repr, DecidableEq

/-- A row of the `FlujoCaja` table (`Fecha` omitted). -/
structure FlowEntry where
  orderId : Int
  cliente : String
  medioPago : String
  ingresoProductos : Int    -- Ingreso_productos_recibido
  ingresoDomicilio : Int    -- Ingreso_domicilio_recibido
  saldoPendienteTotal : Int -- Saldo_pendiente_total
  deriving Repr, DecidableEq

/-- The in-memory tables the business operations read and write.
`clientes` keeps `(ID Cliente, Nombre)`; `inventario` keeps
`(Producto, Stock)` rows in table order. -/
structure State where
  clientes : List (Int × String)
  pedidos : List Order
  detalle : List OrderLine
  inventario : List (String × Int)
  flujo : List FlowEntry
  deriving Repr, DecidableEq

/-- `next_id_for`: `max(ids) + 1` when the table is nonempty, else `1`. -/
def next_id : List Int → Int
  | [] => 1
  | x :: xs => xs.foldl max x + 1

/-- Add `d` to the `Stock` of the first inventory row whose `Producto`
equals `k` (pandas' `df.index[df["Producto"] == prod][0]`). -/
def updateStock : List (String × Int) → String → Int → List (String × Int)
  | [], _, _ => []
  | r :: rs, k, d => if r.1 == k then (r.1, r.2 + d) :: rs else r :: updateStock rs k d

/-- One inventory step of the edit/delete loops: add `d` to the product's
row, or append a new row; the table is not canonicalised first here
(matches lines 558–565, 574–578 and 620–627). -/
def invAddStep (inv : List (String × Int)) (prod : String) (d : Int) :
    List (String × Int) :=
  if inv.any (fun r => r.1 == prod) then updateStock inv prod d
  else inv ++ [(prod, d)]

/-- One inventory step of the order-creation loop (lines 515–523): on an
empty table start a fresh one; otherwise canonicalise every `Producto`
cell, then subtract `qty` from the product's row or append a new row. -/
def invCreateStep (inv : List (String × Int)) (prod : String) (qty : Int) :
    List (String × Int) :=
  if inv.isEmpty then [(prod, -qty)]
  else invAddStep (inv.map (fun r => (canonical_product_name r.1, r.2))) prod (-qty)

/-- Merge a row into an accumulator, summing stocks of equal keys. -/
def insertRow : List (String × Int) → String × Int → List (String × Int)
  | [], r => [r]
  | x :: xs, r => if x.1 == r.1 then (x.1, x.2 + r.2) :: xs else x :: insertRow xs r

/-- `df_inv.groupby("Producto", as_index=False).agg({"Stock":"sum"})`:
one row per distinct `Producto`, stocks summed.  (pandas emits the groups
sorted by key; the row order of the inventory table is never observed by
the business logic, so the model keeps first-occurrence order.) -/
def consolidate (l : List (String × Int)) : List (String × Int) :=
  l.foldl insertRow []

/-- Canonicalise every `Producto` cell and group-sum — the final inventory
normalisation every order mutation performs. -/
def canonConsolidate (l : List (String × Int)) : List (String × Int) :=
  consolidate (l.map (fun r => (canonical_product_name r.1, r.2)))

/-- Replace the first order whose `ID Pedido` is `oid` by `f` of it
(pandas' `df_ped.index[... == order_id][0]` row update). -/
def updateOrder : List Order → Int → (Order → Order) → List Order
  | [], _, _ => []
  | o :: os, oid, f => if o.id == oid then f o :: os else o :: updateOrder os oid f

/-- The header row built by `create_order_with_details` (lines 501–505). -/
def mkHeader (pid cid : Int) (nombre : String) (subtotal domMonto : Int)
    (semana : Int) : Order :=
  { id := pid, clienteId := cid, nombreCliente := nombre,
    subtotal := subtotal, domicilio := domMonto, total := subtotal + domMonto,
    estado := "Pendiente", medioPago := "", montoPagado := 0,
    saldo := subtotal + domMonto, semana := semana }

/-- The detail row built for one item (line 512 / line 573). -/
def mkLine (pid : Int) (pq : String × Int) : OrderLine :=
  let prod := canonical_product_name pq.1
  { orderId := pid, producto := prod, cantidad := pq.2,
    precioUnitario := price prod, subtotal := pq.2 * price prod }

/-- `subtotal = Σ price(canon(p)) * qty` over the items (lines 488–492). -/
def itemsSubtotal (items : List (String × Int)) : Int :=
  items.foldl (fun acc pq => acc + price (canonical_product_name pq.1) * pq.2) 0

/-- `create_order_with_details` (lines 478–541).  `items` is the Python
dict as an association list in iteration order; `semana` stands for the
ISO week computed from the wall clock / `fecha_entrega`.  Persistence and
cache flushing are I/O and drop out of the model. -/
def create_order_with_details (st : State) (clienteId : Int)
    (items : List (String × Int)) (domicilioBool : Bool) (semana : Int) :
    Except String (State × Int) :=
  match st.clientes.find? (fun c => c.1 == clienteId) with
  | none => .error "ID cliente no encontrado"
  | some c =>
    let subtotal := itemsSubtotal items
    let domMonto := if domicilioBool then DOMICILIO_COST else 0
    let pid := next_id (st.pedidos.map (·.id))
    let header := mkHeader pid clienteId c.2 subtotal domMonto semana
    let detalle := st.detalle ++ items.map (mkLine pid)
    let inv := items.foldl
      (fun inv pq => invCreateStep inv (canonical_product_name pq.1) pq.2)
      st.inventario
    .ok ({ st with
            pedidos := st.pedidos ++ [header],
            detalle := detalle,
            inventario := canonConsolidate inv }, pid)

/-- `edit_order` (lines 549–610).  Old lines are reverted into inventory
and dropped, the new items are inserted exactly as in creation, and the
header is recomputed against the unchanged `Monto_pagado`.  `Semana` and
`Estado` follow Python truthiness: `None`, `0` and `""` leave the field
alone. -/
def edit_order (st : State) (orderId : Int) (newItems : List (String × Int))
    (newDomic : Option Bool) (newWeek : Option Int) (newEstado : Option String) :
    Except String State :=
  if !(st.pedidos.any (fun o => o.id == orderId)) then
    .error "Pedido no encontrado"
  else
    let oldLines := st.detalle.filter (fun l => l.orderId == orderId)
    let inv1 := oldLines.foldl
      (fun inv l => invAddStep inv (canonical_product_name l.producto) l.cantidad)
      st.inventario
    let det1 := st.detalle.filter (fun l => l.orderId != orderId)
    let det2 := det1 ++ newItems.map (mkLine orderId)
    let inv2 := newItems.foldl
      (fun inv pq => invAddStep inv (canonical_product_name pq.1) (-pq.2))
      inv1
    let subtotalNew := itemsSubtotal newItems
    let pedidos := updateOrder st.pedidos orderId (fun o =>
      let domicilio := match newDomic with
        | none => o.domicilio
        | some b => if b then DOMICILIO_COST else 0
      let totalNew := subtotalNew + domicilio
      { o with
          subtotal := subtotalNew, domicilio := domicilio, total := totalNew,
          saldo := totalNew - o.montoPagado,
          semana := match newWeek with
            | some w => if w == 0 then o.semana else w
            | none => o.semana,
          estado := match newEstado with
            | some e => if e == "" then o.estado else e
            | none => o.estado })
    .ok { st with
            pedidos := pedidos, detalle := det2,
            inventario := canonConsolidate inv2 }

/-- `delete_order` (lines 612–644): revert every line of the order into
inventory, drop the lines and the header, consolidate. -/
def delete_order (st : State) (orderId : Int) : Except String State :=
  if !(st.pedidos.any (fun o => o.id == orderId)) then
    .error "Pedido no encontrado"
  else
    let detalle := st.detalle.filter (fun l => l.orderId == orderId)
    let inv1 := detalle.foldl
      (fun inv l => invAddStep inv (canonical_product_name l.producto) l.cantidad)
      st.inventario
    .ok { st with
            pedidos := st.pedidos.filter (fun o => o.id != orderId),
            detalle := st.detalle.filter (fun l => l.orderId != orderId),
            inventario := canonConsolidate inv1 }

/-- The pure per-order core of `register_payment` (lines 652–673): the
split of the new cumulative amount between the product and delivery
buckets, and the header update. -/
def payOrder (o : Order) (medio : String) (monto : Int) : Order × Int × Int :=
  let S := o.subtotal
  let D := o.domicilio
  let nuevoTotal := o.montoPagado + monto
  let prodAcum := min nuevoTotal S
  let domAcum := min (max 0 (nuevoTotal - S)) D
  let prodAntes := min o.montoPagado S
  let domAntes := max 0 (o.montoPagado - S)
  let prodNow := max 0 (prodAcum - prodAntes)
  let domNow := max 0 (domAcum - domAntes)
  let saldoTotal := (S - prodAcum) + (D - domAcum)
  ({ o with
      montoPagado := prodAcum + domAcum,
      saldo := saldoTotal,
      medioPago := medio,
      estado := if saldoTotal == 0 then "Entregado" else "Pendiente" },
   prodNow, domNow)

/-- `register_payment` (lines 646–696): update the header through
`payOrder` and append one `FlujoCaja` row holding only the incremental
amounts.  Returns `(prod_paid, domicilio_paid, saldo_total)`. -/
def register_payment (st : State) (orderId : Int) (medio : String)
    (monto : Int) : Except String (State × Int × Int × Int) :=
  match st.pedidos.find? (fun o => o.id == orderId) with
  | none => .error "Pedido no encontrado"
  | some o =>
    let r := payOrder o medio monto
    let entry : FlowEntry :=
      { orderId := orderId, cliente := o.nombreCliente, medioPago := medio,
        ingresoProductos := r.2.1, ingresoDomicilio := r.2.2,
        saldoPendienteTotal := r.1.saldo }
    .ok ({ st with
            pedidos := updateOrder st.pedidos orderId (fun _ => r.1),
            flujo := st.flujo ++ [entry] },
         r.2.1, r.2.2, r.1.saldo)

/-- Total product income over the cash-flow ledger (`flow_summaries`,
lines 710–719). -/
def flowProdTotal (fs : List FlowEntry) : Int :=
  (fs.map (·.ingresoProductos)).sum

/-- Total delivery income over the cash-flow ledger. -/
def flowDomTotal (fs : List FlowEntry) : Int :=
  (fs.map (·.ingresoDomicilio)).sum

/-- The stock the inventory table holds for canonical product `p`: the sum
over all rows whose canonicalised `Producto` is `p` (the table is kept
canonical-and-unique by `canonConsolidate`, where this is the single
row's stock). -/
def stockOf (inv : List (String × Int)) (p : String) : Int :=
  ((inv.filter (fun r => canonical_product_name r.1 == p)).map (·.2)).sum

/-- Total quantity an item map orders of canonical product `p`. -/
def itemsDelta (items : List (String × Int)) (p : String) : Int :=
  ((items.filter (fun pq => canonical_product_name pq.1 == p)).map (·.2)).sum

/-- Total quantity a set of detail lines holds of canonical product `p`. -/
def linesDelta (ls : List OrderLine) (p : String) : Int :=
  ((ls.filter (fun l => canonical_product_name l.producto == p)).map (·.cantidad)).sum

/-- Wellformedness of an order header: the two arithmetic invariants the
spec states for every order. -/
def wfOrder (o : Order) : Prop :=
  o.total = o.subtotal + o.domicilio ∧ o.saldo = o.total - o.montoPagado

/-- Wellformedness of the order table. -/
def wfState (st : State) : Prop :=
  ∀ o ∈ st.pedidos, wfOrder o

/-! ## Concrete fixtures used by witnesses and counterexamples -/

/-- Sample order: subtotal 20000 COP, delivery 3000 COP, nothing paid. -/
def exOrder : Order :=
  { id := 1, clienteId := 1, nombreCliente := "Ana", subtotal := 20000,
    domicilio := 3000, total := 23000, estado := "Pendiente", medioPago := "",
    montoPagado := 0, saldo := 23000, semana := 40 }

/-- Sample state holding one client and the sample order. -/
def exSt : State :=
  { clientes := [(1, "Ana")],
    pedidos := [exOrder],
    detalle := [{ orderId := 1, producto := "Arandanos_250g", cantidad := 2,
                  precioUnitario := 10000, subtotal := 20000 }],
    inventario := [("Arandanos_250g", 8)],
    flujo := [] }

/-- The sample order after a 12000 COP cash payment. -/
def exOrderPaid : Order :=
  { exOrder with montoPagado := 12000, saldo := 11000, medioPago := "Efectivo", estado := "Pendiente" }

/-- The cash-flow row the 12000 COP payment appends. -/
def exFlowRow : FlowEntry :=
  { orderId := 1, cliente := "Ana", medioPago := "Efectivo",
    ingresoProductos := 12000, ingresoDomicilio := 0,
    saldoPendienteTotal := 11000 }

/-- The sample state after `register_payment exSt 1 "Efectivo" 12000`. -/
def exStAfterPay : State :=
  { exSt with pedidos := [exOrderPaid], flujo := [exFlowRow] }

/-- The sample order after a 20000 COP payment (product bucket full). -/
def exOrderPay20 : Order :=
  { exOrder with montoPagado := 20000, saldo := 3000, medioPago := "Efectivo", estado := "Pendiente" }

/-- The sample order fully paid (23000 COP in total). -/
def exOrderPaidFull : Order :=
  { exOrder with montoPagado := 23000, saldo := 0, medioPago := "Efectivo", estado := "Entregado" }

/-- Cash-flow row of the 20000 COP payment. -/
def exFlow20 : FlowEntry :=
  { orderId := 1, cliente := "Ana", medioPago := "Efectivo",
    ingresoProductos := 20000, ingresoDomicilio := 0, saldoPendienteTotal := 3000 }

/-- Cash-flow row of the closing 3000 COP payment. -/
def exFlow3 : FlowEntry :=
  { orderId := 1, cliente := "Ana", medioPago := "Efectivo",
    ingresoProductos := 0, ingresoDomicilio := 3000, saldoPendienteTotal := 0 }

/-- Cash-flow row of a single 23000 COP payment. -/
def exFlow23 : FlowEntry :=
  { orderId := 1, cliente := "Ana", medioPago := "Efectivo",
    ingresoProductos := 20000, ingresoDomicilio := 3000, saldoPendienteTotal := 0 }

/-- Sample state after paying 20000 COP. -/
def exStPay20 : State := { exSt with pedidos := [exOrderPay20], flujo := [exFlow20] }

/-- Sample state after paying 20000 COP and then 3000 COP. -/
def exStPay20Then3 : State :=
  { exSt with pedidos := [exOrderPaidFull], flujo := [exFlow20, exFlow3] }

/-- Sample state after paying 23000 COP in one call. -/
def exStPay23 : State := { exSt with pedidos := [exOrderPaidFull], flujo := [exFlow23] }

/-- Sample state with one client, no orders, and a raw (un-canonical)
inventory row name. -/
def exStRaw : State :=
  { clientes := [(1, "Ana")], pedidos := [], detalle := [],
    inventario := [(" arandanos 250G ", 10)], flujo := [] }

/-- Header the creation on `exStRaw` writes. -/
def exHeaderRaw : Order :=
  { id := 1, clienteId := 1, nombreCliente := "Ana", subtotal := 20000,
    domicilio := 0, total := 20000, estado := "Pendiente", medioPago := "",
    montoPagado := 0, saldo := 20000, semana := 40 }

/-- Detail line the creation on `exStRaw` writes. -/
def exLineRaw : OrderLine :=
  { orderId := 1, producto := "Arandanos_250g", cantidad := 2,
    precioUnitario := 10000, subtotal := 20000 }

/-- The state created by ordering two 250g units on `exStRaw`. -/
def exStRawCreated : State :=
  { exStRaw with
      pedidos := [exHeaderRaw]
      detalle := [exLineRaw]
      inventario := [("Arandanos_250g", 8)] }

/-- The state after deleting that order again: the stock is back to 10
under the canonical key. -/
def exStRawDeleted : State :=
  { exStRaw with inventario := [("Arandanos_250g", 10)] }

/-- The sample order after an empty-map edit: zero subtotal, only the
delivery fee left. -/
def exOrderEditedEmpty : Order :=
  { exOrder with subtotal := 0, total := 3000, saldo := 3000 }

/-- The sample state after `edit_order exSt 1 [] none none none`. -/
def exStEditedEmpty : State :=
  { exSt with
      pedidos := [exOrderEditedEmpty]
      detalle := []
      inventario := [("Arandanos_250g", 10)] }

/-- Header written when ordering a negative quantity: negative subtotal. -/
def exHeaderNeg : Order :=
  { id := 1, clienteId := 1, nombreCliente := "Ana", subtotal := -10000,
    domicilio := 0, total := -10000, estado := "Pendiente", medioPago := "",
    montoPagado := 0, saldo := -10000, semana := 40 }

/-- The stored detail line with quantity −1. -/
def exLineNeg : OrderLine :=
  { orderId := 1, producto := "Arandanos_250g", cantidad := -1,
    precioUnitario := 10000, subtotal := -10000 }

/-- State after creating an order of −1 units on `exStRaw`: the line is
stored and the stock increases. -/
def exStNegCreated : State :=
  { exStRaw with
      pedidos := [exHeaderNeg]
      detalle := [exLineNeg]
      inventario := [("Arandanos_250g", 11)] }

/-- Header of an order created from an empty item map: total 0, balance
0, status still `Pendiente`. -/
def exHeaderEmpty : Order :=
  { id := 1, clienteId := 1, nombreCliente := "Ana", subtotal := 0,
    domicilio := 0, total := 0, estado := "Pendiente", medioPago := "",
    montoPagado := 0, saldo := 0, semana := 40 }

/-- State after creating that empty order on `exStRaw` (create also
re-canonicalises the untouched inventory). -/
def exStEmptyCreated : State :=
  { exStRaw with
      pedidos := [exHeaderEmpty]
      inventario := [("Arandanos_250g", 10)] }

/-- Header of a one-unit order with a given id in the id-reuse trace. -/
def exHeaderOne (i : Int) : Order :=
  { id := i, clienteId := 1, nombreCliente := "Ana", subtotal := 10000,
    domicilio := 0, total := 10000, estado := "Pendiente", medioPago := "",
    montoPagado := 0, saldo := 10000, semana := 40 }

/-- Detail line of a one-unit order with a given id. -/
def exLineOne (i : Int) : OrderLine :=
  { orderId := i, producto := "Arandanos_250g", cantidad := 1,
    precioUnitario := 10000, subtotal := 10000 }

/-- Trace state after creating order 1 on `exStRaw`; deleting order 2
from `exStTraceB` lands back on exactly this value, so the id counter
(max + 1) drops back as well. -/
def exStTraceA : State :=
  { clientes := [(1, "Ana")], pedidos := [exHeaderOne 1],
    detalle := [exLineOne 1], inventario := [("Arandanos_250g", 9)], flujo := [] }

/-- Trace state holding orders 1 and 2. -/
def exStTraceB : State :=
  { exStTraceA with
      pedidos := [exHeaderOne 1, exHeaderOne 2]
      detalle := [exLineOne 1, exLineOne 2]
      inventario := [("Arandanos_250g", 8)] }

/-- Modelled from the spec (§4.1): `canonicalize(rawName)` normalises a
free-text product name to a catalog key using, in order, (1) exact match
of the trimmed input; (2) the catalog key whose normalised form equals
the normalised input; (3) the first catalog key whose normalised form
contains, or is contained in, the normalised input; (4) the trimmed input
unchanged.  Written from the claim's wording, to be compared with the
source-derived `canonical_product_name`. -/
def canonicalizeSpec (name : String) : String :=
  let s := strip name
  if s ∈ productKeys then s
  else
    match productKeys.find? (fun k => norm k == norm s) with
    | some k => k
    | none =>
      match productKeys.find? (fun k => substr (norm s) (norm k) || substr (norm k) (norm s)) with
      | some k => k
      | none => s

/-- The sample order after a further −5000 "payment": header paid amount
drops to 7000, balance grows to 16000. -/
def exOrderNegPaid : Order :=
  { exOrderPaid with montoPagado := 7000, saldo := 16000, medioPago := "Nequi", estado := "Pendiente" }

/-- Cash-flow row of the −5000 payment: both income buckets are 0. -/
def exFlowNeg : FlowEntry :=
  { orderId := 1, cliente := "Ana", medioPago := "Nequi",
    ingresoProductos := 0, ingresoDomicilio := 0, saldoPendienteTotal := 16000 }

/-- Sample state after the −5000 payment on `exStAfterPay`. -/
def exStNegPay : State :=
  { exStAfterPay with pedidos := [exOrderNegPaid], flujo := [exFlowRow, exFlowNeg] }

/-! ## Lemmas on the string helpers -/

/-- Dropping a while-prefix twice is dropping it once. -/
lemma dropWhile_dropWhile (p : Char → Bool) (l : List Char) :
    (l.dropWhile p).dropWhile p = l.dropWhile p := by
  induction l with
  | nil => rfl
  | cons a t ih =>
    by_cases h : p a
    · simp [List.dropWhile_cons, h, ih]
    · simp [List.dropWhile_cons, h]

/-- A list fixed by `dropWhile p` stays fixed on any of its prefixes. -/
lemma dropWhile_of_isPrefix (p : Char → Bool) {l' l : List Char}
    (hp : l' <+: l) (h : l.dropWhile p = l) : l'.dropWhile p = l' := by
  match l', hp with
  | [], _ => rfl
  | a :: t', ⟨r, hr⟩ =>
    match l, hr with
    | _, rfl =>
      simp only [List.cons_append] at h
      by_cases hpa : p a
      · exfalso
        have h1 : (a :: (t' ++ r)).dropWhile p = (t' ++ r).dropWhile p := by
          simp [List.dropWhile_cons, hpa]
        have h2 := (List.dropWhile_suffix p (l := t' ++ r)).length_le
        rw [h1] at h
        have h3 := congrArg List.length h
        simp only [List.length_append, List.length_cons] at h2 h3
        omega
      · simp [List.dropWhile_cons, hpa]

/-- Stripping whitespace is idempotent on character lists. -/
lemma stripList_idem (l : List Char) : stripList (stripList l) = stripList l := by
  have h1 : (stripList l).dropWhile Char.isWhitespace = stripList l := by
    apply dropWhile_of_isPrefix Char.isWhitespace _
      (dropWhile_dropWhile Char.isWhitespace l)
    have h0 := List.dropWhile_suffix (l := (l.dropWhile Char.isWhitespace).reverse)
      Char.isWhitespace
    have h2 := List.reverse_prefix.mpr h0
    rwa [List.reverse_reverse] at h2
  show (((stripList l).dropWhile _).reverse.dropWhile _).reverse = stripList l
  rw [h1]
  unfold stripList
  rw [List.reverse_reverse, dropWhile_dropWhile]

/-- `strip` is idempotent. -/
lemma strip_idem (s : String) : strip (strip s) = strip s := by
  unfold strip
  rw [List.toList_asString, stripList_idem]

/-- Every catalog key canonicalises to itself. -/
lemma productKeys_canon : ∀ k ∈ productKeys, canonical_product_name k = k := by decide

/-- A canonicalised name is a catalog key or the stripped input. -/
lemma canon_cases (s : String) :
    canonical_product_name s ∈ productKeys ∨ canonical_product_name s = strip s := by
  unfold canonical_product_name
  by_cases h1 : productKeys.contains (strip s)
  · left
    simp only [h1, if_true]
    simpa using h1
  · simp only [h1, Bool.false_eq_true, if_false]
    cases h2 : productKeys.find? (fun k => norm k == norm (strip s)) with
    | some k => exact Or.inl (by simpa using List.mem_of_find?_eq_some h2)
    | none =>
      cases h3 : productKeys.find?
          (fun k => substr (norm (strip s)) (norm k) || substr (norm k) (norm (strip s))) with
      | some k => exact Or.inl (by simpa using List.mem_of_find?_eq_some h3)
      | none => simp

/-- `canonical_product_name` is idempotent: the loops key inventory rows
by canonical names, and re-canonicalising those names is the identity. -/
lemma canon_idem (s : String) :
    canonical_product_name (canonical_product_name s)
      = canonical_product_name s := by
  by_cases h1 : productKeys.contains (strip s)
  · have hs : canonical_product_name s = strip s := by
      simp only [canonical_product_name, h1, if_true]
    rw [hs]
    exact productKeys_canon _ (by simpa using h1)
  · cases h2 : productKeys.find? (fun k => norm k == norm (strip s)) with
    | some k =>
      have hs : canonical_product_name s = k := by
        simp only [canonical_product_name, h1, Bool.false_eq_true, if_false, h2]
      rw [hs]
      exact productKeys_canon _ (List.mem_of_find?_eq_some h2)
    | none =>
      cases h3 : productKeys.find?
          (fun k => substr (norm (strip s)) (norm k) || substr (norm k) (norm (strip s))) with
      | some k =>
        have hs : canonical_product_name s = k := by
          simp only [canonical_product_name, h1, Bool.false_eq_true, if_false, h2, h3]
        rw [hs]
        exact productKeys_canon _ (List.mem_of_find?_eq_some h3)
      | none =>
        have hs : canonical_product_name s = strip s := by
          simp only [canonical_product_name, h1, Bool.false_eq_true, if_false, h2, h3]
        rw [hs]
        simp only [canonical_product_name, strip_idem, h1, Bool.false_eq_true, if_false, h2, h3]

/-! ## Lemmas on inventory bookkeeping -/

lemma stockOf_nil (p : String) : stockOf [] p = 0 := rfl

lemma stockOf_cons (r : String × Int) (l : List (String × Int)) (p : String) :
    stockOf (r :: l) p
      = (if canonical_product_name r.1 == p then r.2 else 0) + stockOf l p := by
  by_cases h : canonical_product_name r.1 == p
  · simp [stockOf, List.filter_cons, h]
  · simp [stockOf, List.filter_cons, h]

lemma stockOf_append (l₁ l₂ : List (String × Int)) (p : String) :
    stockOf (l₁ ++ l₂) p = stockOf l₁ p + stockOf l₂ p := by
  simp [stockOf, List.filter_append]

/-- Canonicalising every `Producto` cell does not change any canonical
stock (the keys only move within their canonical class). -/
lemma stockOf_canonMap (l : List (String × Int)) (p : String) :
    stockOf (l.map (fun r => (canonical_product_name r.1, r.2))) p = stockOf l p := by
  induction l with
  | nil => rfl
  | cons r t ih =>
    simp only [List.map_cons, stockOf_cons, ih, canon_idem]

lemma stockOf_insertRow (acc : List (String × Int)) (r : String × Int) (p : String) :
    stockOf (insertRow acc r) p
      = stockOf acc p + (if canonical_product_name r.1 == p then r.2 else 0) := by
  induction acc with
  | nil => simp [insertRow, stockOf_cons, stockOf_nil]
  | cons x xs ih =>
    by_cases h : x.1 == r.1
    · have hx : x.1 = r.1 := by simpa using h
      simp only [insertRow, h, if_true]
      rw [stockOf_cons, stockOf_cons, hx]
      by_cases hp : canonical_product_name r.1 == p <;> simp [hp] <;> ring
    · simp only [insertRow, h, Bool.false_eq_true, if_false, stockOf_cons, ih]
      ring

lemma stockOf_foldl_insertRow (l acc : List (String × Int)) (p : String) :
    stockOf (l.foldl insertRow acc) p = stockOf acc p + stockOf l p := by
  induction l generalizing acc with
  | nil => simp [stockOf_nil]
  | cons r t ih =>
    simp only [List.foldl_cons, ih, stockOf_insertRow, stockOf_cons]
    ring

/-- Group-summing preserves every canonical stock. -/
lemma stockOf_consolidate (l : List (String × Int)) (p : String) :
    stockOf (consolidate l) p = stockOf l p := by
  simp [consolidate, stockOf_foldl_insertRow, stockOf_nil]

/-- The final canonicalise-and-group pass preserves every canonical stock. -/
lemma stockOf_canonConsolidate (l : List (String × Int)) (p : String) :
    stockOf (canonConsolidate l) p = stockOf l p := by
  simp [canonConsolidate, stockOf_consolidate, stockOf_canonMap]

lemma stockOf_updateStock (inv : List (String × Int)) (k : String) (d : Int)
    (p : String) (h : inv.any (fun r => r.1 == k) = true) :
    stockOf (updateStock inv k d) p
      = stockOf inv p + (if canonical_product_name k == p then d else 0) := by
  induction inv with
  | nil => simp at h
  | cons x xs ih =>
    by_cases hx : x.1 == k
    · have hx' : x.1 = k := by simpa using hx
      simp only [updateStock, hx, if_true]
      rw [stockOf_cons, stockOf_cons, hx']
      by_cases hp : canonical_product_name k == p <;> simp [hp] <;> ring
    · simp only [List.any_cons, hx, Bool.false_or] at h
      simp only [updateStock, hx, Bool.false_eq_true, if_false, stockOf_cons, ih h]
      ring

lemma stockOf_invAddStep (inv : List (String × Int)) (k : String) (d : Int)
    (p : String) :
    stockOf (invAddStep inv k d) p
      = stockOf inv p + (if canonical_product_name k == p then d else 0) := by
  by_cases h : inv.any (fun r => r.1 == k)
  · simp only [invAddStep, h, if_true, stockOf_updateStock inv k d p h]
  · simp only [invAddStep, h, Bool.false_eq_true, if_false, stockOf_append,
      stockOf_cons, stockOf_nil]
    ring

lemma stockOf_invCreateStep (inv : List (String × Int)) (prod : String)
    (qty : Int) (p : String) (hc : canonical_product_name prod = prod) :
    stockOf (invCreateStep inv prod qty) p
      = stockOf inv p + (if prod == p then -qty else 0) := by
  by_cases h : inv.isEmpty
  · have : inv = [] := by simpa [List.isEmpty_iff] using h
    subst this
    simp [invCreateStep, stockOf_cons, stockOf_nil, hc]
  · simp only [invCreateStep, h, Bool.false_eq_true, if_false,
      stockOf_invAddStep, stockOf_canonMap, hc]

/-- Effect of the order-creation inventory loop: each canonical product
loses exactly the total quantity ordered of it. -/
lemma stockOf_createFold (items : List (String × Int)) (inv : List (String × Int))
    (p : String) :
    stockOf (items.foldl
        (fun inv pq => invCreateStep inv (canonical_product_name pq.1) pq.2) inv) p
      = stockOf inv p - itemsDelta items p := by
  induction items generalizing inv with
  | nil => simp [itemsDelta]
  | cons pq t ih =>
    simp only [List.foldl_cons, ih, stockOf_invCreateStep _ _ _ _ (canon_idem pq.1)]
    have : itemsDelta (pq :: t) p
        = (if canonical_product_name pq.1 == p then pq.2 else 0) + itemsDelta t p := by
      by_cases hp : canonical_product_name pq.1 == p
      · simp [itemsDelta, List.filter_cons, hp]
      · simp [itemsDelta, List.filter_cons, hp]
    rw [this]
    by_cases hp : canonical_product_name pq.1 == p
    · simp [hp]; ring
    · simp [hp]

/-- Effect of the revert loops of `edit_order`/`delete_order`: each
canonical product gains back the total quantity its lines held. -/
lemma stockOf_revertFold (ls : List OrderLine) (inv : List (String × Int))
    (p : String) :
    stockOf (ls.foldl
        (fun inv l => invAddStep inv (canonical_product_name l.producto) l.cantidad) inv) p
      = stockOf inv p + linesDelta ls p := by
  induction ls generalizing inv with
  | nil => simp [linesDelta]
  | cons l t ih =>
    simp only [List.foldl_cons, ih, stockOf_invAddStep, canon_idem]
    have : linesDelta (l :: t) p
        = (if canonical_product_name l.producto == p then l.cantidad else 0)
          + linesDelta t p := by
      by_cases hp : canonical_product_name l.producto == p
      · simp [linesDelta, List.filter_cons, hp]
      · simp [linesDelta, List.filter_cons, hp]
    rw [this]
    ring

/-- Effect of the new-items inventory loop of `edit_order`. -/
lemma stockOf_editItemsFold (items : List (String × Int))
    (inv : List (String × Int)) (p : String) :
    stockOf (items.foldl
        (fun inv pq => invAddStep inv (canonical_product_name pq.1) (-pq.2)) inv) p
      = stockOf inv p - itemsDelta items p := by
  induction items generalizing inv with
  | nil => simp [itemsDelta]
  | cons pq t ih =>
    simp only [List.foldl_cons, ih, stockOf_invAddStep, canon_idem]
    have : itemsDelta (pq :: t) p
        = (if canonical_product_name pq.1 == p then pq.2 else 0) + itemsDelta t p := by
      by_cases hp : canonical_product_name pq.1 == p
      · simp [itemsDelta, List.filter_cons, hp]
      · simp [itemsDelta, List.filter_cons, hp]
    rw [this]
    by_cases hp : canonical_product_name pq.1 == p
    · simp [hp]; ring
    · simp [hp]

/-! ## Lemmas on the order table -/

/-- Updating the first matching row is reflected by the first-match read,
as long as the update keeps the row's id. -/
lemma find?_updateOrder {l : List Order} {oid : Int} {o : Order}
    (h : l.find? (fun o => o.id == oid) = some o) (f : Order → Order)
    (hf : (f o).id = o.id) :
    (updateOrder l oid f).find? (fun o => o.id == oid) = some (f o) := by
  induction l with
  | nil => simp at h
  | cons a t ih =>
    by_cases ha : a.id == oid
    · rw [List.find?_cons_of_pos (p := fun x : Order => x.id == oid) _ ha] at h
      obtain rfl : a = o := by simpa using h
      simp only [updateOrder, ha, if_true]
      have hfo : ((f a).id == oid) = true := by
        rw [hf]; exact ha
      rw [List.find?_cons_of_pos (p := fun x : Order => x.id == oid) _ hfo]
    · rw [List.find?_cons_of_neg (p := fun x : Order => x.id == oid) _ (by simpa using ha)] at h
      simp only [updateOrder, ha, Bool.false_eq_true, if_false]
      rw [List.find?_cons_of_neg (p := fun x : Order => x.id == oid) _ (by simpa using ha)]
      exact ih h

/-- Every row of an updated order table is an old row or the image of an
old row under the update. -/
lemma mem_updateOrder {l : List Order} {oid : Int} {f : Order → Order} {o' : Order}
    (h : o' ∈ updateOrder l oid f) : o' ∈ l ∨ ∃ o ∈ l, o' = f o := by
  induction l with
  | nil => simp [updateOrder] at h
  | cons a t ih =>
    by_cases ha : a.id == oid
    · simp only [updateOrder, ha, if_true, List.mem_cons] at h
      rcases h with h | h
      · exact Or.inr ⟨a, List.mem_cons_self a t, h⟩
      · exact Or.inl (List.mem_cons_of_mem a h)
    · simp only [updateOrder, ha, Bool.false_eq_true, if_false, List.mem_cons] at h
      rcases h with h | h
      · exact Or.inl (h ▸ List.mem_cons_self a t)
      · rcases ih h with h' | ⟨o, ho, rfl⟩
        · exact Or.inl (List.mem_cons_of_mem a h')
        · exact Or.inr ⟨o, List.mem_cons_of_mem a ho, rfl⟩

lemma foldl_max_le_init (xs : List Int) (a : Int) : a ≤ xs.foldl max a := by
  induction xs generalizing a with
  | nil => exact le_refl a
  | cons x t ih => exact le_trans (le_max_left a x) (ih (max a x))

lemma foldl_max_of_mem {xs : List Int} {x : Int} (h : x ∈ xs) (a : Int) :
    x ≤ xs.foldl max a := by
  induction xs generalizing a with
  | nil => simp at h
  | cons y t ih =>
    rcases List.mem_cons.mp h with rfl | h'
    · exact le_trans (le_max_right a x) (foldl_max_le_init t (max a x))
    · exact ih h' (max a y)

/-- Every id present in the table is strictly below the id `next_id_for`
hands out. -/
lemma lt_next_id {ids : List Int} {x : Int} (h : x ∈ ids) : x < next_id ids := by
  cases ids with
  | nil => simp at h
  | cons y t =>
    show x < t.foldl max y + 1
    rcases List.mem_cons.mp h with rfl | h'
    · exact lt_of_le_of_lt (foldl_max_le_init t x) (lt_add_one _)
    · exact lt_of_le_of_lt (foldl_max_of_mem h' y) (lt_add_one _)

/-! ## Claim C1 — register_payment allocation formula -/

/-- C1. For every order with productSubtotal `S`, deliveryFee `D` and
cumulative amountPaid `P0`, and every payment amount, `register_payment`
with `P1 = P0 + amount` returns
`productPaidNow = max 0 (min P1 S - min P0 S)` and
`deliveryPaidNow = max 0 (min (max 0 (P1-S)) D - max 0 (P0-S))`, and
updates the order so that `amountPaid = min P1 S + min (max 0 (P1-S)) D`,
`balance = (S - min P1 S) + (D - min (max 0 (P1-S)) D)`, the payment
method is overwritten, and the status is `Entregado` exactly when the new
balance is `0`, else `Pendiente`. -/
theorem C1_register_payment_formula (st st' : State) (oid : Int) (o : Order)
    (medio : String) (monto pn dn sal : Int)
    (h : st.pedidos.find? (fun x => x.id == oid) = some o)
    (hr : register_payment st oid medio monto = Except.ok (st', pn, dn, sal)) :
    pn = max 0 (min (o.montoPagado + monto) o.subtotal - min o.montoPagado o.subtotal)
    ∧ dn = max 0 (min (max 0 (o.montoPagado + monto - o.subtotal)) o.domicilio
                - max 0 (o.montoPagado - o.subtotal))
    ∧ sal = (o.subtotal - min (o.montoPagado + monto) o.subtotal)
           + (o.domicilio - min (max 0 (o.montoPagado + monto - o.subtotal)) o.domicilio)
    ∧ st'.pedidos.find? (fun x => x.id == oid) = some
          { o with
              montoPagado := min (o.montoPagado + monto) o.subtotal
                + min (max 0 (o.montoPagado + monto - o.subtotal)) o.domicilio,
              saldo := (o.subtotal - min (o.montoPagado + monto) o.subtotal)
                + (o.domicilio - min (max 0 (o.montoPagado + monto - o.subtotal)) o.domicilio),
              medioPago := medio,
              estado := if (o.subtotal - min (o.montoPagado + monto) o.subtotal)
                  + (o.domicilio - min (max 0 (o.montoPagado + monto - o.subtotal)) o.domicilio) = 0
                then "Entregado" else "Pendiente" } := by
  have hrec : (payOrder o medio monto).1 =
      { o with
          montoPagado := min (o.montoPagado + monto) o.subtotal
            + min (max 0 (o.montoPagado + monto - o.subtotal)) o.domicilio,
          saldo := (o.subtotal - min (o.montoPagado + monto) o.subtotal)
            + (o.domicilio - min (max 0 (o.montoPagado + monto - o.subtotal)) o.domicilio),
          medioPago := medio,
          estado := if (o.subtotal - min (o.montoPagado + monto) o.subtotal)
              + (o.domicilio - min (max 0 (o.montoPagado + monto - o.subtotal)) o.domicilio) = 0
            then "Entregado" else "Pendiente" } := by
    unfold payOrder
    by_cases hs : (o.subtotal - min (o.montoPagado + monto) o.subtotal)
        + (o.domicilio - min (max 0 (o.montoPagado + monto - o.subtotal)) o.domicilio) = 0
    · simp [hs]
    · simp [hs]
  unfold register_payment at hr
  rw [h] at hr
  simp only [Except.ok.injEq, Prod.mk.injEq] at hr
  obtain ⟨hst, hpn, hdn, hsal⟩ := hr
  refine ⟨?_, ?_, ?_, ?_⟩
  · rw [← hpn]; rfl
  · rw [← hdn]; rfl
  · rw [← hsal]; rfl
  · rw [← hst]
    have hf : ((payOrder o medio monto).1).id = o.id := by
      unfold payOrder
      rfl
    have h2 := find?_updateOrder h (fun _ => (payOrder o medio monto).1) hf
    dsimp only
    rw [h2, hrec]

/-- Witness for C1: Scenario 2 of the spec, a 12000 COP payment on the
sample order, checked concretely. -/
theorem C1_register_payment_formula_witness :
    exStAfterPay.pedidos.find? (fun x => x.id == 1) = some exOrderPaid := by
  have h := C1_register_payment_formula exSt exStAfterPay 1 exOrder "Efectivo"
    12000 12000 0 11000 (by decide) (by rfl)
  rw [h.2.2.2]
  decide

/-! ## Claim C2 — totals invariant -/

/-- C2. After every `create_order_with_details`, `edit_order` and
`register_payment` operation, every order satisfies
`total = productSubtotal + deliveryFee` and `balance = total - amountPaid`
(each operation preserves wellformedness of the whole order table, and
creation establishes it for the new header). -/
theorem C2_totals_invariant :
    (∀ st cid items dom sem st' pid,
        create_order_with_details st cid items dom sem = Except.ok (st', pid) →
        wfState st → wfState st')
    ∧ (∀ st oid items nd nw ne st',
        edit_order st oid items nd nw ne = Except.ok st' →
        wfState st → wfState st')
    ∧ (∀ st oid medio monto st' q1 q2 q3,
        register_payment st oid medio monto = Except.ok (st', q1, q2, q3) →
        wfState st → wfState st') := by
  refine ⟨?_, ?_, ?_⟩
  · intro st cid items dom sem st' pid h hwf
    cases hfind : st.clientes.find? (fun c => c.1 == cid) with
    | none =>
      unfold create_order_with_details at h
      rw [hfind] at h
      cases h
    | some c =>
      unfold create_order_with_details at h
      rw [hfind] at h
      simp only [Except.ok.injEq, Prod.mk.injEq] at h
      obtain ⟨hst, hpid⟩ := h
      subst hst
      intro o ho
      dsimp only at ho
      rcases List.mem_append.mp ho with hold | hnew
      · exact hwf o hold
      · have : o = mkHeader (next_id (st.pedidos.map (·.id))) cid c.2
            (itemsSubtotal items) (if dom then DOMICILIO_COST else 0) sem := by
          simpa using hnew
        subst this
        exact ⟨rfl, by simp [mkHeader]⟩
  · intro st oid items nd nw ne st' h hwf
    by_cases hex : st.pedidos.any (fun o => o.id == oid)
    · unfold edit_order at h
      rw [hex] at h
      simp only [Bool.not_true, Bool.false_eq_true, if_false, Except.ok.injEq] at h
      subst h
      intro o ho
      dsimp only at ho
      rcases mem_updateOrder ho with hold | ⟨o₀, ho₀, rfl⟩
      · exact hwf o hold
      · exact ⟨rfl, rfl⟩
    · unfold edit_order at h
      rw [Bool.not_eq_true] at hex
      rw [hex] at h
      cases h
  · intro st oid medio monto st' q1 q2 q3 h hwf
    cases hfind : st.pedidos.find? (fun x => x.id == oid) with
    | none =>
      unfold register_payment at h
      rw [hfind] at h
      cases h
    | some o =>
      unfold register_payment at h
      rw [hfind] at h
      simp only [Except.ok.injEq, Prod.mk.injEq] at h
      obtain ⟨hst, -, -, -⟩ := h
      subst hst
      intro o' ho'
      dsimp only at ho'
      rcases mem_updateOrder ho' with hold | ⟨o₀, ho₀, rfl⟩
      · exact hwf o' hold
      · have hwfo := hwf o (List.mem_of_find?_eq_some hfind)
        obtain ⟨ht, hs⟩ := hwfo
        constructor
        · show o.total = o.subtotal + o.domicilio
          exact ht
        · show (payOrder o medio monto).1.saldo
            = o.total - (payOrder o medio monto).1.montoPagado
          unfold payOrder
          dsimp only
          omega

/-- Witness for C2: the payment branch applied to the sample state keeps
the whole order table wellformed. -/
theorem C2_totals_invariant_witness : wfState exStAfterPay :=
  C2_totals_invariant.2.2 exSt 1 "Efectivo" 12000 exStAfterPay 12000 0 11000
    rfl (by intro o ho; simp only [exSt] at ho; simp at ho; subst ho
            exact ⟨by decide, by decide⟩)

lemma flowProdTotal_append (l₁ l₂ : List FlowEntry) :
    flowProdTotal (l₁ ++ l₂) = flowProdTotal l₁ + flowProdTotal l₂ := by
  simp [flowProdTotal]

lemma flowDomTotal_append (l₁ l₂ : List FlowEntry) :
    flowDomTotal (l₁ ++ l₂) = flowDomTotal l₁ + flowDomTotal l₂ := by
  simp [flowDomTotal]

/-! ## Claim C3 — payment splitting is cumulative-equivalent -/

set_option maxHeartbeats 1600000 in
/-- C3. For every order and nonnegative amounts `a`, `b` with
`a + b ≤ total`, registering a payment of `a` and then one of `b` yields
the same final `amountPaid`, the same final `balance` and the same
cash-flow per-bucket totals as one payment of `a + b`, but appends two
`FlujoCaja` rows instead of one. -/
theorem C3_payment_splitting (st st1 st2 st3 : State) (oid : Int) (o : Order)
    (m1 m2 m3 : String) (a b : Int) (r1 r2 r3 : Int × Int × Int)
    (ho : st.pedidos.find? (fun x => x.id == oid) = some o)
    (ha : 0 ≤ a) (hb : 0 ≤ b) (hab : a + b ≤ o.total)
    (hS : 0 ≤ o.subtotal) (hD : 0 ≤ o.domicilio)
    (h1 : register_payment st oid m1 a = Except.ok (st1, r1))
    (h2 : register_payment st1 oid m2 b = Except.ok (st2, r2))
    (h3 : register_payment st oid m3 (a + b) = Except.ok (st3, r3)) :
    ((st2.pedidos.find? (fun x => x.id == oid)).map (fun p => (p.montoPagado, p.saldo))
      = (st3.pedidos.find? (fun x => x.id == oid)).map (fun p => (p.montoPagado, p.saldo)))
    ∧ flowProdTotal st2.flujo = flowProdTotal st3.flujo
    ∧ flowDomTotal st2.flujo = flowDomTotal st3.flujo
    ∧ st2.flujo.length = st.flujo.length + 2
    ∧ st3.flujo.length = st.flujo.length + 1 := by
  unfold register_payment at h1
  rw [ho] at h1
  simp only [Except.ok.injEq, Prod.mk.injEq] at h1
  obtain ⟨hst1, -⟩ := h1
  subst hst1
  have hid1 : ((payOrder o m1 a).1).id = o.id := by unfold payOrder; rfl
  have ho1 := find?_updateOrder ho (fun _ => (payOrder o m1 a).1) hid1
  unfold register_payment at h2
  dsimp only at h2
  rw [ho1] at h2
  simp only [Except.ok.injEq, Prod.mk.injEq] at h2
  obtain ⟨hst2, -⟩ := h2
  subst hst2
  unfold register_payment at h3
  rw [ho] at h3
  simp only [Except.ok.injEq, Prod.mk.injEq] at h3
  obtain ⟨hst3, -⟩ := h3
  subst hst3
  have hid2 : ((payOrder (payOrder o m1 a).1 m2 b).1).id = ((payOrder o m1 a).1).id := by
    unfold payOrder; rfl
  have ho2 := find?_updateOrder ho1 (fun _ => (payOrder (payOrder o m1 a).1 m2 b).1) hid2
  have hid3 : ((payOrder o m3 (a + b)).1).id = o.id := by unfold payOrder; rfl
  have ho3 := find?_updateOrder ho (fun _ => (payOrder o m3 (a + b)).1) hid3
  refine ⟨?_, ?_, ?_, ?_, ?_⟩
  · dsimp only
    rw [ho2, ho3]
    simp only [Option.map_some', Option.some.injEq, Prod.mk.injEq]
    unfold payOrder
    dsimp only
    constructor
    · omega
    · omega
  · dsimp only
    rw [flowProdTotal_append, flowProdTotal_append, flowProdTotal_append]
    simp only [flowProdTotal, List.map_cons, List.map_nil, List.sum_cons, List.sum_nil]
    unfold payOrder
    dsimp only
    omega
  · dsimp only
    rw [flowDomTotal_append, flowDomTotal_append, flowDomTotal_append]
    simp only [flowDomTotal, List.map_cons, List.map_nil, List.sum_cons, List.sum_nil]
    unfold payOrder
    dsimp only
    omega
  · dsimp only
    simp only [List.append_assoc, List.length_append, List.length_cons,
      List.length_nil]
  · dsimp only
    simp only [List.length_append, List.length_cons, List.length_nil]


/-- Witness for C3: Scenario 3 of the spec — 20000 then 3000 versus a
single 23000 on the sample order. -/
theorem C3_payment_splitting_witness :
    flowProdTotal exStPay20Then3.flujo = flowProdTotal exStPay23.flujo
    ∧ flowDomTotal exStPay20Then3.flujo = flowDomTotal exStPay23.flujo
    ∧ exStPay20Then3.flujo.length = exSt.flujo.length + 2 := by
  have h := C3_payment_splitting exSt exStPay20 exStPay20Then3 exStPay23 1 exOrder
    "Efectivo" "Efectivo" "Efectivo" 20000 3000
    (20000, 0, 3000) (0, 3000, 0) (20000, 3000, 0)
    (by decide) (by decide) (by decide) (by decide) (by decide) (by decide)
    (by rfl) (by rfl) (by rfl)
  exact ⟨h.2.1, h.2.2.1, h.2.2.2.1⟩

/-! ## Claim C4 — inventory conservation under create/delete -/

lemma linesDelta_map_mkLine (pid : Int) (items : List (String × Int)) (p : String) :
    linesDelta (items.map (mkLine pid)) p = itemsDelta items p := by
  induction items with
  | nil => rfl
  | cons pq t ih =>
    by_cases hp : canonical_product_name pq.1 == p
    · simp only [List.map_cons, linesDelta, itemsDelta, List.filter_cons, mkLine] at *
      simp only [canon_idem, hp, if_true] at *
      simp [ih]
    · simp only [List.map_cons, linesDelta, itemsDelta, List.filter_cons, mkLine] at *
      simp only [canon_idem, hp] at *
      simp [ih]

/-- C4. For every order created from an item set, deleting that order
with no other interleaved operations on the same products returns every
referenced product's inventory stock to its value before the creation. -/
theorem C4_inventory_conservation (st st1 st2 : State) (cid : Int)
    (items : List (String × Int)) (dom : Bool) (sem pid : Int)
    (h1 : create_order_with_details st cid items dom sem = Except.ok (st1, pid))
    (h0 : ∀ l ∈ st.detalle, l.orderId ≠ pid)
    (h2 : delete_order st1 pid = Except.ok st2) :
    ∀ p, (∃ l ∈ st1.detalle, l.orderId = pid ∧ l.producto = p) →
      stockOf st2.inventario p = stockOf st.inventario p := by
  intro p hp
  cases hfind : st.clientes.find? (fun c => c.1 == cid) with
  | none =>
    unfold create_order_with_details at h1
    rw [hfind] at h1
    cases h1
  | some c =>
    unfold create_order_with_details at h1
    rw [hfind] at h1
    simp only [Except.ok.injEq, Prod.mk.injEq] at h1
    obtain ⟨hst1, hpid⟩ := h1
    subst hpid
    subst hst1
    -- resolve the delete
    have hex : ((st.pedidos ++ [mkHeader (next_id (st.pedidos.map (·.id))) cid c.2
        (itemsSubtotal items) (if dom then DOMICILIO_COST else 0) sem]).any
        (fun o => o.id == next_id (st.pedidos.map (·.id)))) = true := by
      simp [mkHeader]
    unfold delete_order at h2
    dsimp only at h2
    rw [hex] at h2
    simp only [Bool.not_true, Bool.false_eq_true, if_false, Except.ok.injEq] at h2
    subst h2
    dsimp only
    -- the deleted lines are exactly the created ones
    have hfilter : ((st.detalle ++ items.map (mkLine (next_id (st.pedidos.map (·.id))))).filter
        (fun l => l.orderId == next_id (st.pedidos.map (·.id))))
        = items.map (mkLine (next_id (st.pedidos.map (·.id)))) := by
      rw [List.filter_append]
      have hl : (st.detalle.filter (fun l => l.orderId == next_id (st.pedidos.map (·.id)))) = [] := by
        rw [List.filter_eq_nil_iff]
        intro l hl
        simpa using h0 l hl
      have hr : ((items.map (mkLine (next_id (st.pedidos.map (·.id))))).filter
          (fun l => l.orderId == next_id (st.pedidos.map (·.id))))
          = items.map (mkLine (next_id (st.pedidos.map (·.id)))) := by
        rw [List.filter_eq_self]
        intro l hl
        obtain ⟨pq, -, rfl⟩ := List.mem_map.mp hl
        simp [mkLine]
      rw [hl, hr, List.nil_append]
    rw [hfilter]
    rw [stockOf_canonConsolidate, stockOf_revertFold, stockOf_canonConsolidate,
      stockOf_createFold, linesDelta_map_mkLine]
    ring

/-- Witness for C4: create then delete a two-unit order over a raw-named
inventory row; the canonical stock returns to 10. -/
theorem C4_inventory_conservation_witness :
    stockOf exStRawDeleted.inventario "Arandanos_250g"
      = stockOf exStRaw.inventario "Arandanos_250g" :=
  C4_inventory_conservation exStRaw exStRawCreated exStRawDeleted 1 [("Arandanos_250g", 2)]
    false 40 1 (by rfl) (by decide) (by rfl) "Arandanos_250g" (by decide)

/-! ## Claim C5 — empty edit is not rejected (corrected) -/

/-- Counterexample to C5: `edit_order` called with an empty item map on
the existing sample order does not fail; it succeeds and leaves the order
with zero lines. -/
theorem C5_empty_edit_counterexample :
    edit_order exSt 1 [] none none none = Except.ok exStEditedEmpty
    ∧ exStEditedEmpty.detalle = [] := ⟨rfl, rfl⟩

/-- C5 as amended: `edit_order` with an empty `new_items` map on an
existing order succeeds (no `EmptyOrderError` exists in the code — the
guard lives in the UI caller only), deletes all the order's lines and
sets its product subtotal to 0. -/
theorem C5_empty_edit_accepted (st : State) (oid : Int) (o : Order)
    (nd : Option Bool) (nw : Option Int) (ne : Option String)
    (h : st.pedidos.find? (fun x => x.id == oid) = some o) :
    (edit_order st oid [] nd nw ne).isOk = true
    ∧ ∀ st', edit_order st oid [] nd nw ne = Except.ok st' →
        st'.detalle = st.detalle.filter (fun l => l.orderId != oid)
        ∧ (st'.pedidos.find? (fun x => x.id == oid)).map (fun q => q.subtotal)
            = some 0 := by
  have hex : (st.pedidos.any (fun x => x.id == oid)) = true := by
    rw [List.any_eq_true]
    exact ⟨o, List.mem_of_find?_eq_some h, List.find?_some (p := fun x : Order => x.id == oid) h⟩
  constructor
  · unfold edit_order
    rw [hex]
    rfl
  · intro st' h'
    unfold edit_order at h'
    rw [hex] at h'
    simp only [Bool.not_true, Bool.false_eq_true, if_false, Except.ok.injEq] at h'
    subst h'
    constructor
    · simp
    · dsimp only
      rw [find?_updateOrder h _ rfl]
      rfl


/-- Witness for C5's amended theorem: the empty edit on the sample state
succeeds. -/
theorem C5_empty_edit_accepted_witness :
    (edit_order exSt 1 [] none none none).isOk = true :=
  (C5_empty_edit_accepted exSt 1 exOrder none none none (by decide)).1

/-! ## Claim C6 — items with qty ≤ 0 are not excluded (corrected) -/

/-- Counterexample to C6: creating an order whose only item has quantity
−1 stores that line, contributes −10000 to the subtotal and increases the
stock by 1 — nothing is ignored or excluded. -/
theorem C6_qty_filter_counterexample :
    create_order_with_details exStRaw 1 [("Arandanos_250g", -1)] false 40
      = Except.ok (exStNegCreated, 1)
    ∧ exStNegCreated.detalle = [exLineNeg]
    ∧ exHeaderNeg.subtotal = -10000
    ∧ stockOf exStNegCreated.inventario "Arandanos_250g"
        = stockOf exStRaw.inventario "Arandanos_250g" + 1 := by
  refine ⟨rfl, rfl, rfl, by decide⟩

/-- C6 as amended: `create_order_with_details` applies no quantity
filter.  Every item — also with qty ≤ 0 — contributes `price·qty` to the
subtotal, is stored as an `OrderLine` row, and moves the product's stock
by `−qty`. -/
theorem C6_no_qty_filter (st st' : State) (cid : Int) (c : Int × String)
    (items : List (String × Int)) (dom : Bool) (sem pid : Int)
    (hc : st.clientes.find? (fun x => x.1 == cid) = some c)
    (h : create_order_with_details st cid items dom sem = Except.ok (st', pid)) :
    st'.pedidos = st.pedidos ++ [mkHeader pid cid c.2 (itemsSubtotal items)
        (if dom then DOMICILIO_COST else 0) sem]
    ∧ st'.detalle = st.detalle ++ items.map (mkLine pid)
    ∧ ∀ p, stockOf st'.inventario p = stockOf st.inventario p - itemsDelta items p := by
  unfold create_order_with_details at h
  rw [hc] at h
  simp only [Except.ok.injEq, Prod.mk.injEq] at h
  obtain ⟨hst, hpid⟩ := h
  subst hpid
  subst hst
  refine ⟨rfl, rfl, ?_⟩
  intro p
  dsimp only
  rw [stockOf_canonConsolidate, stockOf_createFold]


/-- Witness for C6's amended theorem: the −1-quantity creation on the raw
sample state, lines stored verbatim. -/
theorem C6_no_qty_filter_witness :
    exStNegCreated.detalle = exStRaw.detalle ++ [("Arandanos_250g", -1)].map (mkLine 1) :=
  (C6_no_qty_filter exStRaw exStNegCreated 1 (1, "Ana") [("Arandanos_250g", -1)]
    false 40 1 (by decide) (by rfl)).2.1

/-! ## Claim C7 — status/balance correspondence (corrected) -/

/-- Mapping an order table through a per-row function that the update
does not affect commutes with `updateOrder`. -/
lemma updateOrder_map {α : Type} (l : List Order) (oid : Int)
    (f : Order → Order) (g : Order → α) (hg : ∀ o, g (f o) = g o) :
    (updateOrder l oid f).map g = l.map g := by
  induction l with
  | nil => rfl
  | cons a t ih =>
    by_cases ha : a.id == oid
    · simp only [updateOrder, ha, if_true, List.map_cons, hg]
    · simp only [updateOrder, ha, Bool.false_eq_true, if_false, List.map_cons, ih]

/-- Counterexample to C7: an order created from an empty item map has
balance 0 yet status `Pendiente` — the claimed iff fails right after
`create_order_with_details`. -/
theorem C7_status_iff_counterexample :
    create_order_with_details exStRaw 1 [] false 40
      = Except.ok (exStEmptyCreated, 1)
    ∧ exHeaderEmpty.saldo = 0
    ∧ exHeaderEmpty.estado ≠ "Entregado" := by
  refine ⟨rfl, rfl, by decide⟩

/-- C7 as amended: the `status = Entregado ↔ balance = 0` correspondence
holds for the order updated by `register_payment`, but creation always
writes `Pendiente` (even when the total, hence the balance, is 0), and an
edit without an explicit new status never touches any order's status —
whatever the new balance is. -/
theorem C7_status_derivation :
    (∀ st oid medio monto st' q1 q2 q3 o',
        register_payment st oid medio monto = Except.ok (st', q1, q2, q3) →
        st'.pedidos.find? (fun x => x.id == oid) = some o' →
        (o'.estado = "Entregado" ↔ o'.saldo = 0))
    ∧ (∀ st cid items dom sem st' pid,
        create_order_with_details st cid items dom sem = Except.ok (st', pid) →
        ∀ o ∈ st'.pedidos, o ∈ st.pedidos ∨ o.estado = "Pendiente")
    ∧ (∀ st oid items nd nw st',
        edit_order st oid items nd nw none = Except.ok st' →
        st'.pedidos.map (fun o => o.estado) = st.pedidos.map (fun o => o.estado)) := by
  refine ⟨?_, ?_, ?_⟩
  · intro st oid medio monto st' q1 q2 q3 o' h hfind
    cases ho : st.pedidos.find? (fun x => x.id == oid) with
    | none =>
      unfold register_payment at h
      rw [ho] at h
      cases h
    | some o =>
      unfold register_payment at h
      rw [ho] at h
      simp only [Except.ok.injEq, Prod.mk.injEq] at h
      obtain ⟨hst, -⟩ := h
      subst hst
      dsimp only at hfind
      rw [find?_updateOrder ho _ (by unfold payOrder; rfl)] at hfind
      obtain rfl : (payOrder o medio monto).1 = o' := by simpa using hfind
      unfold payOrder
      dsimp only
      by_cases hz : (o.subtotal - min (o.montoPagado + monto) o.subtotal)
          + (o.domicilio - min (max 0 (o.montoPagado + monto - o.subtotal)) o.domicilio) = 0
      · simp [hz]
      · simp [hz]
  · intro st cid items dom sem st' pid h o ho
    cases hc : st.clientes.find? (fun x => x.1 == cid) with
    | none =>
      unfold create_order_with_details at h
      rw [hc] at h
      cases h
    | some c =>
      unfold create_order_with_details at h
      rw [hc] at h
      simp only [Except.ok.injEq, Prod.mk.injEq] at h
      obtain ⟨hst, -⟩ := h
      subst hst
      dsimp only at ho
      rcases List.mem_append.mp ho with hold | hnew
      · exact Or.inl hold
      · right
        have : o = mkHeader (next_id (st.pedidos.map (·.id))) cid c.2
            (itemsSubtotal items) (if dom then DOMICILIO_COST else 0) sem := by
          simpa using hnew
        subst this
        rfl
  · intro st oid items nd nw st' h
    by_cases hex : st.pedidos.any (fun o => o.id == oid)
    · unfold edit_order at h
      rw [hex] at h
      simp only [Bool.not_true, Bool.false_eq_true, if_false, Except.ok.injEq] at h
      subst h
      dsimp only
      exact updateOrder_map _ _ _ _ (fun o => rfl)
    · unfold edit_order at h
      rw [Bool.not_eq_true] at hex
      rw [hex] at h
      cases h


/-- Witness for C7's amended theorem: after the sample 12000 COP payment
the updated order's status matches its balance. -/
theorem C7_status_derivation_witness :
    exOrderPaid.estado = "Entregado" ↔ exOrderPaid.saldo = 0 :=
  C7_status_derivation.1 exSt 1 "Efectivo" 12000 exStAfterPay 12000 0 11000
    exOrderPaid rfl (by decide)

/-! ## Claim C8 — order ids are reused after deletion (corrected) -/

/-- Counterexample to C8: order id 2 is assigned, its order deleted, and
the next creation assigns id 2 again — an id of a deleted order is
reassigned to a later order. -/
theorem C8_id_reuse_counterexample :
    create_order_with_details exStRaw 1 [("Arandanos_250g", 1)] false 40
      = Except.ok (exStTraceA, 1)
    ∧ create_order_with_details exStTraceA 1 [("Arandanos_250g", 1)] false 40
      = Except.ok (exStTraceB, 2)
    ∧ delete_order exStTraceB 2 = Except.ok exStTraceA
    ∧ create_order_with_details exStTraceA 1 [("Arandanos_250g", 1)] false 40
      = Except.ok (exStTraceB, 2) :=
  ⟨rfl, rfl, rfl, rfl⟩

/-- C8 as amended: a new order's id is `max(current ids) + 1` (1 on an
empty table), which is strictly greater than every id present at that
moment — but only unused at that moment: after deleting the
greatest-id order, its id is handed out again. -/
theorem C8_next_id_assignment (st st' : State) (cid : Int)
    (items : List (String × Int)) (dom : Bool) (sem pid : Int)
    (h : create_order_with_details st cid items dom sem = Except.ok (st', pid)) :
    pid = next_id (st.pedidos.map (·.id)) ∧ ∀ o ∈ st.pedidos, o.id < pid := by
  cases hc : st.clientes.find? (fun x => x.1 == cid) with
  | none =>
    unfold create_order_with_details at h
    rw [hc] at h
    cases h
  | some c =>
    unfold create_order_with_details at h
    rw [hc] at h
    simp only [Except.ok.injEq, Prod.mk.injEq] at h
    obtain ⟨-, hpid⟩ := h
    subst hpid
    refine ⟨rfl, ?_⟩
    intro o ho
    exact lt_next_id (List.mem_map_of_mem (fun q => q.id) ho)


/-- Witness for C8's amended theorem: creating on the one-order trace
state yields id 2, above the existing order's id 1. -/
theorem C8_next_id_assignment_witness : (exHeaderOne 1).id < 2 :=
  (C8_next_id_assignment exStTraceA exStTraceB 1 [("Arandanos_250g", 1)]
    false 40 2 rfl).2 (exHeaderOne 1) (by decide)

/-! ## Claim C9 — canonicalisation precedence -/

/-- C9. For every input string, `canonical_product_name` returns the
trimmed input when it is exactly a catalog key; otherwise the catalog key
whose normalised form equals the normalised input; otherwise the first
catalog key whose normalised form contains or is contained in the
normalised input; otherwise the trimmed input — in that order.  The
normalised catalog keys are pairwise distinct, so the stage-2 key is
unique.  Stated as equality with `canonicalizeSpec`, the function written
from the spec's wording. -/
theorem C9_canonicalize_precedence :
    (∀ s, canonical_product_name s = canonicalizeSpec s)
    ∧ (productKeys.map norm).Nodup := by
  constructor
  · intro s
    unfold canonical_product_name canonicalizeSpec
    by_cases h : productKeys.contains (strip s)
    · have h' : strip s ∈ productKeys := by simpa using h
      simp [h, h']
    · have h' : ¬ (strip s ∈ productKeys) := by simpa using h
      simp [h, h']
  · decide

/-! ## Claim C10 — negative payment amounts are accepted -/

/-- C10. `register_payment` accepts a negative amount without error: for
an order with `0 ≤ amountPaid ≤ productSubtotal` the header's cumulative
paid amount becomes `amountPaid + amount` (possibly negative) and the
balance grows by `−amount`, while the appended cash-flow row records 0 in
both income buckets — so the cash-flow income totals no longer account
for the header's reduced cumulative paid amount. -/
theorem C10_negative_payment (st : State) (oid : Int) (o : Order) (medio : String)
    (monto : Int)
    (ho : st.pedidos.find? (fun x => x.id == oid) = some o)
    (hneg : monto < 0)
    (h0 : 0 ≤ o.montoPagado) (h1 : o.montoPagado ≤ o.subtotal)
    (hD : 0 ≤ o.domicilio)
    (hw1 : o.total = o.subtotal + o.domicilio)
    (hw2 : o.saldo = o.total - o.montoPagado) :
    register_payment st oid medio monto = Except.ok
      ({ st with
          pedidos := updateOrder st.pedidos oid
            (fun _ => { o with montoPagado := o.montoPagado + monto, saldo := o.saldo - monto, medioPago := medio, estado := "Pendiente" }),
          flujo := st.flujo ++
            [{ orderId := oid, cliente := o.nombreCliente, medioPago := medio,
               ingresoProductos := 0, ingresoDomicilio := 0,
               saldoPendienteTotal := o.saldo - monto }] },
       0, 0, o.saldo - monto) := by
  have hpay : payOrder o medio monto =
      ({ o with montoPagado := o.montoPagado + monto, saldo := o.saldo - monto, medioPago := medio, estado := "Pendiente" }, 0, 0) := by
    unfold payOrder
    have hm : min (o.montoPagado + monto) o.subtotal
        + min (max 0 (o.montoPagado + monto - o.subtotal)) o.domicilio
        = o.montoPagado + monto := by omega
    have hs : (o.subtotal - min (o.montoPagado + monto) o.subtotal)
        + (o.domicilio - min (max 0 (o.montoPagado + monto - o.subtotal)) o.domicilio)
        = o.saldo - monto := by omega
    have hp : max 0 (min (o.montoPagado + monto) o.subtotal
        - min o.montoPagado o.subtotal) = 0 := by omega
    have hd : max 0 (min (max 0 (o.montoPagado + monto - o.subtotal)) o.domicilio
        - max 0 (o.montoPagado - o.subtotal)) = 0 := by omega
    have hne : ¬ (o.saldo - monto = 0) := by omega
    simp only [hm, hs, hp, hd]
    rw [if_neg (by simpa using hne)]
  unfold register_payment
  rw [ho]
  dsimp only
  rw [hpay]


/-- Witness for C10: taking 5000 back off the sample order after its
12000 payment. -/
theorem C10_negative_payment_witness :
    register_payment exStAfterPay 1 "Nequi" (-5000)
      = Except.ok (exStNegPay, 0, 0, 16000) := by
  rw [C10_negative_payment exStAfterPay 1 exOrderPaid "Nequi" (-5000)
    (by decide) (by decide) (by decide) (by decide) (by decide) (by decide) (by decide)]
  rfl

end AndicBlue
